import Mathlib

/-!
Verification of the query-interpretation core of the WhoWasWhen workflow
(`src/pkg/ruler-query.go`).

The Go program parses a free-text query, classifies tokens as year-like or
text, resolves the year anchor into a SQL predicate over a denormalized year
index, merges ruler and event hits into a single counted batch, ranks a
ruler's titles, and renders result items.  This file gives a shallow
embedding of those pure parts (token classification, year-pattern
resolution including the SQLite comparison semantics the generated SQL
relies on, the lineage windowing, the counter/merge pass, title ranking and
subtitle formatting, and the no-results placeholder) and proves the spec's
claims about them.

Machine integers: the Go code uses `int` only for years, counts and indices
that are far from overflow; they are modelled as `Int`/`Nat`.
-/

namespace WhoWasWhen

/-! ### Decimal rendering and parsing of integers

`CAST(y.year as TEXT)` in SQLite and Go's `strconv.Itoa`/`%d` both render an
integer in decimal with a leading `-` for negatives.  `natDigitsAux` is
fuel-indexed structural recursion (fuel `n+1` always suffices since the
argument shrinks by division by 10) so that it reduces inside `decide`. -/

/-- The decimal digit character for a value below ten (values ten or above
clamp to the last arm; the function is only applied to `n % 10` or `n < 10`). -/
def digitChar (n : Nat) : Char :=
  match n with
  | 0 => '0' | 1 => '1' | 2 => '2' | 3 => '3' | 4 => '4'
  | 5 => '5' | 6 => '6' | 7 => '7' | 8 => '8' | _ => '9'

def natDigitsAux : Nat → Nat → List Char
  | 0, _ => []
  | fuel + 1, n =>
    if n < 10 then [digitChar n]
    else natDigitsAux fuel (n / 10) ++ [digitChar (n % 10)]

/-- Decimal digit string of a natural number (the rendering used by
`strconv.Itoa` and by SQLite `CAST(... as TEXT)` for nonnegative values). -/
def natDigits (n : Nat) : List Char := natDigitsAux (n + 1) n

/-- Decimal string of a signed integer, as a character list:
minus sign followed by the digits for negatives. -/
def decString (y : Int) : List Char :=
  if y < 0 then '-' :: natDigits (-y).toNat else natDigits y.toNat

/-- Numeric value of a decimal digit character. -/
def charVal (c : Char) : Nat := c.toNat - 48

/-- Value of a digit string (most significant first). -/
def parseNat (l : List Char) : Nat := l.foldl (fun acc c => acc * 10 + charVal c) 0

/-- Nonempty all-digit character list. -/
def isDigits (l : List Char) : Bool := !l.isEmpty && l.all Char.isDigit

/-- SQLite numeric affinity applied to a text operand of a comparison with an
INTEGER column: a well-formed `-?digits` string converts to the integer it
denotes, any other text stays TEXT (and every INTEGER sorts before every
TEXT).  The strings reaching this function come from pieces of a year-like
token, so the extra lenience of real SQLite (whitespace, `+`, decimals) is
never exercised. -/
def parseSQLInt (l : List Char) : Option Int :=
  match l with
  | '-' :: rest => if isDigits rest then some (-(parseNat rest : Int)) else none
  | _ => if isDigits l then some ((parseNat l : Int)) else none

/-! ### The year predicate built by `byYear`

`byYear` builds one of three SQL conditions on the year index
(src/pkg/ruler-query.go lines 921-939):
  * one hyphen, not leading: `y.year BETWEEN 'a' AND 'b'` from splitting on `-`;
  * more than one hyphen: the same with bounds from `extractRange`;
  * otherwise: `CAST(y.year as TEXT) LIKE 'prefix___'` with one `_` per
    trailing `*` of the token.
-/

/-- SQL `y.year BETWEEN lo AND hi` for an integer year and text bounds,
under SQLite affinity: a non-numeric bound keeps its TEXT type and every
integer sorts strictly before it. -/
def sqlBetween (y : Int) (lo hi : List Char) : Bool :=
  (match parseSQLInt lo with
   | some a => decide (a ≤ y)
   | none => false) &&
  (match parseSQLInt hi with
   | some b => decide (y ≤ b)
   | none => true)

/-- SQL `LIKE` for patterns made of literal characters and the single-character
wildcard `_` (the patterns built by `byYear` never contain `%`). -/
def likeMatch : List Char → List Char → Bool
  | [], [] => true
  | [], _ :: _ => false
  | _ :: _, [] => false
  | p :: ps, c :: cs => (p == '_' || p == c) && likeMatch ps cs

/-- Number of trailing `*` of the token:
`len(yearTerm) - len(strings.TrimRight(yearTerm, "*"))`. -/
def trailingStars (l : List Char) : Nat := (l.reverse.takeWhile (fun c => c == '*')).length

/-- Embedding of `strings.Split(l, "-")`. -/
def splitOnHyphen : List Char → List (List Char)
  | [] => [[]]
  | c :: rest =>
    if c = '-' then [] :: splitOnHyphen rest
    else
      match splitOnHyphen rest with
      | [] => [[c]]
      | h :: t => (c :: h) :: t

/-- Optional-minus-then-digits run (`-?\d+`). -/
def signedDigits (l : List Char) : Bool :=
  if l.head? = some '-' then isDigits l.tail else isDigits l

/-- First alternative `^(-?\d+)-(-?\d+)$` of the `extractRange` regular
expression, as its (deterministic) parse: the first group takes the optional
leading minus and the maximal digit run (the greedy `\d+` cannot end
elsewhere, since the next pattern character is the literal `-`), then the
rest of the string after that separator must be the second group. -/
def extractAlt1Go (sign rest : List Char) : Option (List Char × List Char) :=
  if (rest.takeWhile Char.isDigit).isEmpty then none
  else
    match rest.dropWhile Char.isDigit with
    | '-' :: g2 =>
      if signedDigits g2 then some (sign ++ rest.takeWhile Char.isDigit, g2) else none
    | _ => none

def extractAlt1 (l : List Char) : Option (List Char × List Char) :=
  if l.head? = some '-' then extractAlt1Go ['-'] l.tail else extractAlt1Go [] l

/-- Second alternative `^-?(\d+)$`: the captured group holds only the digits,
without the optional minus. -/
def extractAlt2 (l : List Char) : Option (List Char) :=
  if l.head? = some '-' then (if isDigits l.tail then some l.tail else none)
  else (if isDigits l then some l else none)

/-- Embedding of `extractRange` (src/pkg/ruler-query.go lines 649-666): the
two-group alternative wins if it matches, then the bare-year alternative with
an empty second component, otherwise two empty strings (in Go a failed
`FindStringSubmatch` yields no groups and the function returns `"", ""`). -/
def extractRange (l : List Char) : List Char × List Char :=
  match extractAlt1 l with
  | some (a, b) => (a, b)
  | none =>
    match extractAlt2 l with
    | some d => (d, [])
    | none => ([], [])

/-- The year condition of the `byYear` SQL query, as a predicate on one
indexed year (src/pkg/ruler-query.go lines 921-939).  The same construction
appears verbatim in `getEventsByYearWithoutCounters`. -/
def yearPred (yearTerm : String) (y : Int) : Bool :=
  let l := yearTerm.toList
  let k := trailingStars l
  let fixedPart := l.take (l.length - k)
  if l.count '-' = 1 ∧ l.head? ≠ some '-' then
    let parts := splitOnHyphen l
    sqlBetween y (parts.getD 0 []) (parts.getD 1 [])
  else if 1 < l.count '-' then
    let r := extractRange l
    sqlBetween y r.1 r.2
  else
    likeMatch (fixedPart ++ List.replicate k '_') (decString y)

/-! ### Token classification (`isNumberLike` and the main loop) -/

/-- A `\d*\**` run: digits followed by asterisks. -/
def digitsThenStars (l : List Char) : Bool :=
  (l.dropWhile Char.isDigit).all (fun c => c == '*')

/-- A `-?\d*\**` run. -/
def sdsMatch (l : List Char) : Bool :=
  match l with
  | '-' :: rest => digitsThenStars rest
  | _ => digitsThenStars l

/-- Embedding of `isNumberLike` (src/pkg/ruler-query.go lines 635-646), the
boolean match of `^-?\d*\**$|^-?\d*\**--?\d*\**$`: either the whole token is
a `-?\d*\**` run, or it splits at some `-` into two such runs. -/
def isNumberLike (term : String) : Bool :=
  let l := term.toList
  sdsMatch l ||
    (List.range l.length).any (fun i =>
      l[i]? == some '-' && sdsMatch (l.take i) && sdsMatch (l.drop (i + 1)))

/-- Embedding of the term classification in `main`
(src/pkg/ruler-query.go lines 537-566): the anchor is the first year-like
token; the residual terms are the tokens different (as strings) from it. -/
def classifyTerms (terms : List String) : Option String × List String :=
  match terms.filter (fun t => isNumberLike t) with
  | [] => (none, terms)
  | m :: _ => (some m, terms.filter (fun t => t != m))

/-! ### Title ranking and subtitle formatting -/

/-- ASCII lowering of a string, the effect of `strings.ToLower` on the
ASCII title names involved. -/
def lowerStr (s : String) : String := String.mk (s.toList.map Char.toLower)

/-- Substring test, the semantics of `strings.Contains`. -/
def containsSub (s sub : String) : Bool :=
  let l := s.toList
  let m := sub.toList
  (List.range (l.length + 1)).any (fun i => m.isPrefixOf (l.drop i))

/-- Embedding of `getTitleRank` (src/pkg/ruler-query.go lines 314-375):
case-insensitive substring checks, in source order. -/
def getTitleRank (title : String) : Nat :=
  let t := lowerStr title
  if containsSub t "roman emperor" then 1
  else if containsSub t "byzantine emperor" then 2
  else if containsSub t "holy roman emperor" then 3
  else if containsSub t "king" || containsSub t "queen" then 10
  else if containsSub t "emperor" then 15
  else if containsSub t "tsar" || containsSub t "czar" then 20
  else if containsSub t "president" then 30
  else if containsSub t "prime minister" || containsSub t "premier" then 35
  else if containsSub t "chancellor" then 40
  else if containsSub t "duke" || containsSub t "duchess" then 50
  else if containsSub t "pope" then 55
  else if containsSub t "patriarch" then 60
  else if containsSub t "consul" then 100
  else if containsSub t "tribune" then 110
  else if containsSub t "dictator" then 120
  else 1000

/-- The fields of a `PeriodInfo` row used by the formatter. -/
structure PeriodInfo where
  period : String
  notes : String
  title : String
  startYear : Int
  endYear : Int
  progrTitle : Nat
  deriving DecidableEq

/-- A title together with its periods and its rank. -/
structure TitleGroup where
  title : String
  periods : List PeriodInfo
  rank : Nat
  deriving DecidableEq

/-- Appends a period to its title's bucket (preserving per-title period
order, as the Go `map[string][]PeriodInfo` append does). -/
def insertPeriod (acc : List (String × List PeriodInfo)) (p : PeriodInfo) :
    List (String × List PeriodInfo) :=
  match acc with
  | [] => [(p.title, [p])]
  | (t, l) :: rest =>
    if t = p.title then (t, l ++ [p]) :: rest else (t, l) :: insertPeriod rest p

/-- Grouping of periods by title.  The Go code stores the groups in a
`map[string][]PeriodInfo` and then ranges over the map, whose iteration
order Go deliberately randomizes; this embedding fixes the one deterministic
order available, first occurrence of each title. -/
def groupTitles (ps : List PeriodInfo) : List (String × List PeriodInfo) :=
  ps.foldl insertPeriod []

def buildGroups (ps : List PeriodInfo) : List TitleGroup :=
  (groupTitles ps).map (fun g => ⟨g.1, g.2, getTitleRank g.1⟩)

/-- Inner loop of the sort in `formatSubtitle`
(src/pkg/ruler-query.go lines 403-409): with current element `x` at slot `i`,
scan the following slots and swap whenever the current element's rank is
strictly greater; returns the element finally left at slot `i` and the
resulting tail. -/
def innerLoop : TitleGroup → List TitleGroup → TitleGroup × List TitleGroup
  | x, [] => (x, [])
  | x, y :: ys =>
    if y.rank < x.rank then
      ((innerLoop y ys).1, x :: (innerLoop y ys).2)
    else
      ((innerLoop x ys).1, y :: (innerLoop x ys).2)

/-- Outer loop of the exchange sort; the fuel is the number of outer
iterations, which the Go loop fixes to the length of the slice. -/
def selectionSortAux : Nat → List TitleGroup → List TitleGroup
  | 0, l => l
  | _ + 1, [] => []
  | fuel + 1, x :: xs =>
    (innerLoop x xs).1 :: selectionSortAux fuel (innerLoop x xs).2

def selectionSort (l : List TitleGroup) : List TitleGroup :=
  selectionSortAux l.length l

/-- Embedding of `formatYear` (src/pkg/ruler-query.go lines 306-312). -/
def formatYear (year : Int) : String :=
  if year < 0 then String.mk (natDigits (-year).toNat) ++ " BC"
  else String.mk (natDigits year.toNat)

/-- One period inside a title group: `start-end` (or the single year when
they coincide), then the notes when present and not the literal `","`. -/
def periodEntry (p : PeriodInfo) : String :=
  let base :=
    if p.startYear = p.endYear then formatYear p.startYear
    else formatYear p.startYear ++ "-" ++ formatYear p.endYear
  if p.notes ≠ "" ∧ p.notes ≠ "," then base ++ ", " ++ p.notes else base

def titleGroupString (g : TitleGroup) : String :=
  g.title ++ " (" ++ String.intercalate "; " (g.periods.map periodEntry) ++ ")"

/-- Embedding of `formatSubtitle` (src/pkg/ruler-query.go lines 385-445).
`personalName` is the `sql.NullString`: `some pn` when valid. -/
def formatSubtitle (periods : List PeriodInfo) (personalName : Option String) : String :=
  let sorted := selectionSort (buildGroups periods)
  let titlesString := String.intercalate "; " (sorted.map titleGroupString)
  match personalName with
  | some pn => if pn ≠ "" then pn ++ ", " ++ titlesString else titlesString
  | none => titlesString

/-! ### Result items, counters and the no-results placeholder -/

/-- Embedding of `formatNumber` (src/pkg/ruler-query.go lines 134-148):
decimal digits with a `,` inserted before every position whose distance from
the end is a positive multiple of three. -/
def formatNumber (n : Nat) : String :=
  let str := natDigits n
  if str.length ≤ 3 then String.mk str
  else
    String.mk
      ((str.enum.map (fun p =>
        if 0 < p.1 ∧ (str.length - p.1) % 3 = 0 then [',', p.2] else [p.2])).flatten)

/-- A secondary action of a result item (Go `AlfredMod`); the Go
`map[string]string` of state variables is embedded as an association list. -/
structure AlfredMod where
  valid : Bool
  arg : String
  subtitle : String
  vars : List (String × String)
  deriving DecidableEq

/-- A result item (Go `AlfredItem`); the `map[string]AlfredMod` is embedded
as an association list, and `icon` holds the icon path. -/
structure AlfredItem where
  title : String
  subtitle : String
  valid : Bool
  arg : String
  mods : List (String × AlfredMod)
  icon : String
  deriving DecidableEq

/-- The counter decoration of one subtitle. -/
def withCounter (i total : Nat) (s : String) : String :=
  if s ≠ "" then formatNumber i ++ "/" ++ formatNumber total ++ " " ++ s
  else formatNumber i ++ "/" ++ formatNumber total

/-- The unified counter pass over a finished batch
(src/pkg/ruler-query.go lines 582-589 and 1114-1122). -/
def addCounters (items : List AlfredItem) : List AlfredItem :=
  items.enum.map (fun p => { p.2 with subtitle := withCounter (p.1 + 1) items.length p.2.subtitle })

/-- The merge of the two entity streams in the event-enabled searches:
ruler items are appended first, event items second, then the single counter
pass runs over the combined list. -/
def mergeResults (rulerItems eventItems : List AlfredItem) : List AlfredItem :=
  addCounters (rulerItems ++ eventItems)

/-- The no-results placeholder item (src/pkg/ruler-query.go lines 593-614 and
1126-1147; both sites build this same item).  The Go literal never sets
`Valid`, so it is the zero value `false`. -/
def noResultsItem (originalQuery : String) : AlfredItem :=
  { title := "No results here 🫤"
    subtitle := "Try a different query"
    valid := false
    arg := ""
    mods := [("cmd+alt",
      { valid := true
        arg := originalQuery
        subtitle := "Go back to main search"
        vars := [("mySource", ""), ("myRulerID", ""), ("mytitleProg", ""),
          ("myTitle", ""), ("restoredQuery", originalQuery)] })]
    icon := "icons/hopeless.png" }

/-- Tail of `byYear`: the placeholder replaces an empty batch when a year
term was present (src/pkg/ruler-query.go lines 1124-1148). -/
def finalizeByYear (yearTerm originalQuery : String) (items : List AlfredItem) :
    List AlfredItem :=
  if yearTerm ≠ "" ∧ items = [] then [noResultsItem originalQuery] else items

/-- Tail of the event-enabled name search in `main`: the placeholder replaces
an empty merged batch (src/pkg/ruler-query.go lines 591-615). -/
def finalizeNameSearch (originalQuery : String) (items : List AlfredItem) :
    List AlfredItem :=
  if items = [] then [noResultsItem originalQuery] else items

/-! ### Lineage windowing -/

/-- The fields of one row of the ordered holder sequence of a title that the
lineage logic inspects. -/
structure LineageRow where
  rulerID : Int
  progrTitle : Nat
  deriving DecidableEq

/-- Index of the focal entry (src/pkg/ruler-query.go lines 784-796): the
first row matching the (ruler id, position index) pair, with fallback 0. -/
def focalIdx (rows : List LineageRow) (rid : Int) (prog : Nat) : Nat :=
  match rows.findIdx? (fun r => r.rulerID == rid && r.progrTitle == prog) with
  | some i => i
  | none => 0

/-- The displayed window (src/pkg/ruler-query.go lines 798-806): from three
slots before the focal index (clamped at the start) to the end of the
sequence.  Natural subtraction performs the clamping of `startIdx`. -/
def lineageWindow (rows : List LineageRow) (rid : Int) (prog : Nat) : List LineageRow :=
  rows.drop (focalIdx rows rid prog - 3)

/-! ### Concrete data used by witnesses and counterexamples -/

def kingPeriod : PeriodInfo :=
  { period := "960-970", notes := "", title := "King", startYear := 960, endYear := 970,
    progrTitle := 1 }

def popePeriod : PeriodInfo :=
  { period := "950-955", notes := "", title := "Pope", startYear := 950, endYear := 955,
    progrTitle := 2 }

def archonPeriod : PeriodInfo :=
  { period := "100-110", notes := "", title := "Archon", startYear := 100, endYear := 110,
    progrTitle := 1 }

def vizierPeriod : PeriodInfo :=
  { period := "120-130", notes := "", title := "Vizier", startYear := 120, endYear := 130,
    progrTitle := 1 }

def plainItem : AlfredItem :=
  { title := "t", subtitle := "s", valid := true, arg := "", mods := [], icon := "" }

/-! ## Lemmas about decimal rendering -/

theorem charVal_digitChar : ∀ n, n < 10 → charVal (digitChar n) = n := by decide

theorem isDigit_digitChar : ∀ n, n < 10 → (digitChar n).isDigit = true := by decide

theorem natDigitsAux_ne_nil (fuel n : Nat) (h : n < fuel) : natDigitsAux fuel n ≠ [] := by
  cases fuel with
  | zero => omega
  | succ f =>
    unfold natDigitsAux
    split
    · simp
    · simp

theorem natDigitsAux_all_digit (fuel n : Nat) (h : n < fuel) :
    (natDigitsAux fuel n).all Char.isDigit = true := by
  induction fuel generalizing n with
  | zero => omega
  | succ f ih =>
    unfold natDigitsAux
    split
    · next hn => simp [isDigit_digitChar n hn]
    · next hn =>
      have h1 : n / 10 < f := by omega
      simp only [List.all_append, List.all_cons, List.all_nil, Bool.and_true, Bool.and_eq_true]
      exact ⟨ih _ h1, isDigit_digitChar _ (Nat.mod_lt n (by omega))⟩

theorem parseNat_append_single (l : List Char) (c : Char) :
    parseNat (l ++ [c]) = parseNat l * 10 + charVal c := by
  simp [parseNat, List.foldl_append]

theorem parseNat_natDigitsAux (fuel n : Nat) (h : n < fuel) :
    parseNat (natDigitsAux fuel n) = n := by
  induction fuel generalizing n with
  | zero => omega
  | succ f ih =>
    unfold natDigitsAux
    split
    · next hn => simp [parseNat, charVal_digitChar n hn]
    · next hn =>
      have h1 : n / 10 < f := by omega
      rw [parseNat_append_single, ih (n / 10) h1, charVal_digitChar _ (Nat.mod_lt n (by omega))]
      omega

theorem natDigits_ne_nil (n : Nat) : natDigits n ≠ [] :=
  natDigitsAux_ne_nil (n + 1) n (by omega)

theorem natDigits_all_digit (n : Nat) : (natDigits n).all Char.isDigit = true :=
  natDigitsAux_all_digit (n + 1) n (by omega)

theorem parseNat_natDigits (n : Nat) : parseNat (natDigits n) = n :=
  parseNat_natDigitsAux (n + 1) n (by omega)

theorem isDigits_natDigits (n : Nat) : isDigits (natDigits n) = true := by
  have h2 := natDigits_all_digit n
  unfold isDigits
  rw [h2, Bool.and_true]
  cases h : natDigits n with
  | nil => exact absurd h (natDigits_ne_nil n)
  | cons c cs => rfl

theorem hyphen_not_digit : ('-').isDigit = false := by decide

theorem not_hyphen_of_digit {c : Char} (h : c.isDigit = true) : c ≠ '-' := by
  intro hc; rw [hc] at h; simp [hyphen_not_digit] at h

theorem natDigits_head_not_hyphen (n : Nat) :
    ∀ c rest, natDigits n = c :: rest → c ≠ '-' := by
  intro c rest h
  have hall := natDigits_all_digit n
  rw [h] at hall
  simp only [List.all_cons, Bool.and_eq_true] at hall
  exact not_hyphen_of_digit hall.1

theorem natDigits_not_mem_hyphen (n : Nat) : '-' ∉ natDigits n := by
  intro hmem
  have hall := natDigits_all_digit n
  rw [List.all_eq_true] at hall
  have := hall _ hmem
  simp [hyphen_not_digit] at this

/-- The round trip at the heart of the `BETWEEN` branches: SQLite converts
the rendered bound back to the integer it came from. -/
theorem parseSQLInt_decString (y : Int) : parseSQLInt (decString y) = some y := by
  by_cases hy : y < 0
  · have h1 : decString y = '-' :: natDigits (-y).toNat := by simp [decString, hy]
    rw [h1]
    show (if isDigits (natDigits (-y).toNat) then
        some (-(parseNat (natDigits (-y).toNat) : Int)) else none) = some y
    rw [isDigits_natDigits, if_pos rfl, parseNat_natDigits]
    congr 1
    omega
  · have h1 : decString y = natDigits y.toNat := by simp [decString, hy]
    rw [h1]
    cases hd : natDigits y.toNat with
    | nil => exact absurd hd (natDigits_ne_nil _)
    | cons c rest =>
      have hc : c ≠ '-' := natDigits_head_not_hyphen _ _ _ hd
      have h3 : parseSQLInt (c :: rest) =
          if isDigits (c :: rest) then some ((parseNat (c :: rest) : Int)) else none := by
        unfold parseSQLInt
        split
        · next heq =>
          injection heq with he1 he2
          exact absurd he1 hc
        · rfl
      rw [h3, ← hd, isDigits_natDigits, if_pos rfl, parseNat_natDigits]
      congr 1
      omega

/-! ## Lemmas about `LIKE` patterns -/

theorem likeMatch_replicate (k : Nat) (s : List Char) :
    (likeMatch (List.replicate k '_') s = true) ↔ s.length = k := by
  induction k generalizing s with
  | zero => cases s <;> simp [likeMatch]
  | succ n ih =>
    cases s with
    | nil => simp [List.replicate_succ, likeMatch]
    | cons c cs => simp [List.replicate_succ, likeMatch, ih]

theorem likeMatch_split (p u s : List Char) (hp : ∀ c ∈ p, c ≠ '_') :
    (likeMatch (p ++ u) s = true) ↔ ∃ r, s = p ++ r ∧ likeMatch u r = true := by
  induction p generalizing s with
  | nil => simp
  | cons a p ih =>
    cases s with
    | nil => simp [likeMatch]
    | cons c cs =>
      have ha : (a == '_') = false := by simpa using hp a (by simp)
      simp only [List.cons_append, likeMatch, ha, Bool.false_or, Bool.and_eq_true, beq_iff_eq,
        List.append_eq]
      rw [ih cs (fun c hc => hp c (by simp [hc]))]
      constructor
      · rintro ⟨rfl, r, rfl, hm⟩
        exact ⟨r, rfl, hm⟩
      · rintro ⟨r, heq, hm⟩
        injection heq with h1 h2
        exact ⟨h1.symm, r, h2, hm⟩

/-- The `LIKE 'prefix___'` pattern of the wildcard branch holds exactly for
the strings that extend the fixed part by as many characters as there are
wildcards. -/
theorem likeMatch_fixed_wild (p : List Char) (k : Nat) (s : List Char)
    (hp : ∀ c ∈ p, c ≠ '_') :
    (likeMatch (p ++ List.replicate k '_') s = true) ↔
      s.length = p.length + k ∧ ∃ r, s = p ++ r := by
  rw [likeMatch_split p (List.replicate k '_') s hp]
  constructor
  · rintro ⟨r, rfl, hm⟩
    have hr := (likeMatch_replicate k r).mp hm
    exact ⟨by simp [hr], r, rfl⟩
  · rintro ⟨hlen, r, rfl⟩
    refine ⟨r, rfl, (likeMatch_replicate k r).mpr ?_⟩
    simp at hlen
    omega

/-! ## Character classes of year-like tokens -/

theorem digitsThenStars_chars {l : List Char} (h : digitsThenStars l = true) :
    ∀ c ∈ l, c.isDigit = true ∨ c = '*' := by
  intro c hc
  rw [← List.takeWhile_append_dropWhile (p := Char.isDigit) (l := l)] at hc
  rcases List.mem_append.mp hc with h1 | h1
  · exact Or.inl (List.mem_takeWhile_imp h1)
  · unfold digitsThenStars at h
    rw [List.all_eq_true] at h
    exact Or.inr (by simpa using h c h1)

theorem sdsMatch_chars {l : List Char} (h : sdsMatch l = true) :
    ∀ c ∈ l, c.isDigit = true ∨ c = '-' ∨ c = '*' := by
  intro c hc
  cases l with
  | nil => cases hc
  | cons a rest =>
    by_cases ha : a = '-'
    · subst ha
      have h2 : digitsThenStars rest = true := h
      rcases List.mem_cons.mp hc with rfl | hc2
      · exact Or.inr (Or.inl rfl)
      · rcases digitsThenStars_chars h2 c hc2 with hd | hs
        · exact Or.inl hd
        · exact Or.inr (Or.inr hs)
    · have h2 : digitsThenStars (a :: rest) = true := by
        unfold sdsMatch at h
        revert h
        split
        · next heq =>
          injection heq with he1 he2
          exact absurd he1 ha
        · exact id
      rcases digitsThenStars_chars h2 c hc with hd | hs
      · exact Or.inl hd
      · exact Or.inr (Or.inr hs)

theorem isNumberLike_chars {t : String} (h : isNumberLike t = true) :
    ∀ c ∈ t.toList, c.isDigit = true ∨ c = '-' ∨ c = '*' := by
  intro c hc
  unfold isNumberLike at h
  rw [Bool.or_eq_true] at h
  rcases h with h | h
  · exact sdsMatch_chars h c hc
  · rw [List.any_eq_true] at h
    obtain ⟨i, _, hcond⟩ := h
    rw [Bool.and_eq_true, Bool.and_eq_true] at hcond
    obtain ⟨⟨hhy, htake⟩, hdrop⟩ := hcond
    have hhy2 : t.toList[i]? = some '-' := by simpa using hhy
    obtain ⟨hilt, hival⟩ := List.getElem?_eq_some.mp hhy2
    have hsplit : t.toList = t.toList.take i ++ t.toList.drop i :=
      (List.take_append_drop i t.toList).symm
    rw [hsplit] at hc
    rcases List.mem_append.mp hc with h1 | h1
    · exact sdsMatch_chars htake c h1
    · rw [List.drop_eq_getElem_cons hilt] at h1
      rcases List.mem_cons.mp h1 with rfl | h2
      · exact Or.inr (Or.inl hival)
      · exact sdsMatch_chars hdrop c h2

theorem not_underscore_of_tokenChar {c : Char}
    (h : c.isDigit = true ∨ c = '-' ∨ c = '*') : c ≠ '_' := by
  rcases h with h | h | h
  · exact fun hc => by rw [hc] at h; simp at h
  · rw [h]; decide
  · rw [h]; decide

/-! ## The wildcard branch of the year predicate -/

/-- A token whose tail holds no hyphen (so at most a leading minus) never
takes either `BETWEEN` branch of `byYear`: the predicate is the `LIKE` one. -/
theorem yearPred_eq_likeMatch (t : String) (y : Int)
    (htail : t.toList.tail.all (fun c => !(c == '-')) = true) :
    yearPred t y =
      likeMatch (t.toList.take (t.toList.length - trailingStars t.toList)
        ++ List.replicate (trailingStars t.toList) '_') (decString y) := by
  have hcount : t.toList.count '-' ≤ 1
      ∧ (t.toList.count '-' = 1 → t.toList.head? = some '-') := by
    cases hl : t.toList with
    | nil => simp
    | cons a rest =>
      have hrest : rest.count '-' = 0 := by
        rw [List.count_eq_zero]
        intro hmem
        rw [hl] at htail
        have h2 := (List.all_eq_true.mp htail) '-' (by simpa using hmem)
        simp at h2
      by_cases ha : a = '-'
      · subst ha
        simp [List.count_cons, hrest]
      · constructor
        · simp [List.count_cons, hrest, ha]
        · intro hone
          rw [List.count_cons, hrest] at hone
          simp [ha] at hone
  have h1 : ¬(t.toList.count '-' = 1 ∧ t.toList.head? ≠ some '-') := by
    rintro ⟨he, hne⟩
    exact hne (hcount.2 he)
  have h2 : ¬(1 < t.toList.count '-') := by omega
  unfold yearPred
  rw [if_neg h1, if_neg h2]

/-- Claim C1: a non-range year anchor with `k` trailing asterisks selects
exactly the years whose decimal string has the length of the fixed part plus
`k` and starts with the fixed part; `k = 0` is an exact match, and the bare
negative token `"-44"` selects exactly the year `-44`. -/
theorem C1_wildcard_year_matching :
    (∀ (t : String) (y : Int),
        isNumberLike t = true →
        t.toList.tail.all (fun c => !(c == '-')) = true →
        (yearPred t y = true ↔
          (decString y).length
              = (t.toList.take (t.toList.length - trailingStars t.toList)).length
                + trailingStars t.toList
            ∧ ∃ r, decString y
                = t.toList.take (t.toList.length - trailingStars t.toList) ++ r))
    ∧ (∀ y : Int, yearPred "-44" y = true ↔ y = -44) := by
  constructor
  · intro t y hnum htail
    rw [yearPred_eq_likeMatch t y htail]
    apply likeMatch_fixed_wild
    intro c hc
    exact not_underscore_of_tokenChar (isNumberLike_chars hnum c (List.mem_of_mem_take hc))
  · intro y
    rw [yearPred_eq_likeMatch "-44" y (by decide)]
    rw [likeMatch_fixed_wild _ _ _ (by decide)]
    have hfix : "-44".toList.take ("-44".toList.length - trailingStars "-44".toList)
        = ['-', '4', '4'] := by decide
    have hk : trailingStars "-44".toList = 0 := by decide
    rw [hfix, hk]
    constructor
    · rintro ⟨hlen, r, hr⟩
      have hr0 : r = [] := by
        have h5 : (['-', '4', '4'] ++ r).length = ['-', '4', '4'].length + 0 := by
          rw [← hr, hlen]
        simp at h5
        exact h5
      rw [hr0, List.append_nil] at hr
      have hroundtrip := parseSQLInt_decString y
      rw [hr] at hroundtrip
      have h44 : parseSQLInt ['-', '4', '4'] = some (-44) := by decide
      rw [h44] at hroundtrip
      exact (Option.some.inj hroundtrip).symm
    · rintro rfl
      exact ⟨by decide, [], by decide⟩

theorem C1_witness : yearPred "177*" (1770 : Int) = true :=
  (C1_wildcard_year_matching.1 "177*" 1770 (by decide) (by decide)).mpr
    ⟨by decide, ['0'], by decide⟩

/-! ## Lemmas about range tokens -/

theorem count_hyphen_natDigits (n : Nat) : (natDigits n).count '-' = 0 :=
  List.count_eq_zero.mpr (natDigits_not_mem_hyphen n)

theorem decString_nonneg (a : Int) (h : 0 ≤ a) : decString a = natDigits a.toNat := by
  have h2 : ¬(a < 0) := by omega
  simp [decString, h2]

theorem decString_neg (a : Int) (h : a < 0) : decString a = '-' :: natDigits (-a).toNat := by
  simp [decString, h]

theorem decString_ne_nil (a : Int) : decString a ≠ [] := by
  by_cases h : a < 0
  · rw [decString_neg a h]; simp
  · rw [decString_nonneg a (by omega)]; exact natDigits_ne_nil _

theorem count_hyphen_decString (a : Int) :
    (decString a).count '-' = if a < 0 then 1 else 0 := by
  by_cases h : a < 0
  · rw [decString_neg a h, if_pos h, List.count_cons, count_hyphen_natDigits]
    simp
  · rw [decString_nonneg a (by omega), if_neg h, count_hyphen_natDigits]

theorem head?_decString_nonneg (a : Int) (h : 0 ≤ a) :
    (decString a).head? ≠ some '-' := by
  rw [decString_nonneg a h]
  cases hd : natDigits a.toNat with
  | nil => exact absurd hd (natDigits_ne_nil _)
  | cons c rest =>
    have hc := natDigits_head_not_hyphen _ _ _ hd
    simp [hc]

theorem signedDigits_decString (b : Int) : signedDigits (decString b) = true := by
  by_cases h : b < 0
  · rw [decString_neg b h]
    simp [signedDigits, isDigits_natDigits]
  · rw [decString_nonneg b (by omega)]
    unfold signedDigits
    rw [if_neg (head?_decString_nonneg b (by omega) ∘ (decString_nonneg b (by omega) ▸ ·)),
      isDigits_natDigits]

theorem takeWhile_digits_append (A : List Char) (c : Char) (B : List Char)
    (hA : A.all Char.isDigit = true) (hc : c.isDigit = false) :
    (A ++ c :: B).takeWhile Char.isDigit = A
      ∧ (A ++ c :: B).dropWhile Char.isDigit = c :: B := by
  induction A with
  | nil => simp [List.takeWhile_cons, List.dropWhile_cons, hc]
  | cons a A ih =>
    rw [List.all_cons, Bool.and_eq_true] at hA
    have h2 := ih hA.2
    simp [List.takeWhile_cons, List.dropWhile_cons, hA.1, h2.1, h2.2]

/-- The core of the two-group alternative on a digit run followed by the
separator. -/
theorem extractAlt1Go_eval (sign A B : List Char)
    (hA : isDigits A = true) (hB : signedDigits B = true) :
    extractAlt1Go sign (A ++ '-' :: B) = some (sign ++ A, B) := by
  have hAne : A ≠ [] := by
    intro h; rw [h] at hA; simp [isDigits] at hA
  have hall : A.all Char.isDigit = true := by
    rw [isDigits, Bool.and_eq_true] at hA; exact hA.2
  have htd := takeWhile_digits_append A '-' B hall hyphen_not_digit
  unfold extractAlt1Go
  rw [htd.1, htd.2]
  rw [if_neg (by simpa [List.isEmpty_iff] using hAne)]
  show (if signedDigits B = true then some (sign ++ A, B) else none) = some (sign ++ A, B)
  rw [if_pos hB]

/-- The two-group alternative on a token starting with a digit run. -/
theorem extractAlt1_digits_start (A B : List Char)
    (hA : isDigits A = true) (hB : signedDigits B = true) :
    extractAlt1 (A ++ '-' :: B) = some (A, B) := by
  have hAne : A ≠ [] := by
    intro h; rw [h] at hA; simp [isDigits] at hA
  have hall : A.all Char.isDigit = true := by
    rw [isDigits, Bool.and_eq_true] at hA; exact hA.2
  have hhead : (A ++ '-' :: B).head? ≠ some '-' := by
    rw [List.head?_append_of_ne_nil _ hAne]
    cases A with
    | nil => exact absurd rfl hAne
    | cons a A2 =>
      have ha : a.isDigit = true := by
        rw [List.all_cons, Bool.and_eq_true] at hall; exact hall.1
      simp [not_hyphen_of_digit ha]
  unfold extractAlt1
  rw [if_neg hhead, extractAlt1Go_eval [] A B hA hB]
  simp

/-- The two-group alternative on a token starting with a minus and a digit
run. -/
theorem extractAlt1_neg_start (A B : List Char)
    (hA : isDigits A = true) (hB : signedDigits B = true) :
    extractAlt1 ('-' :: (A ++ '-' :: B)) = some ('-' :: A, B) := by
  unfold extractAlt1
  rw [if_pos (by simp), List.tail_cons, extractAlt1Go_eval ['-'] A B hA hB]
  simp

theorem splitOnHyphen_no_hyphen (B : List Char) (hB : '-' ∉ B) :
    splitOnHyphen B = [B] := by
  induction B with
  | nil => rfl
  | cons b B ih =>
    have hb : b ≠ '-' := fun h => hB (by simp [h])
    have h2 := ih (fun h => hB (by simp [h]))
    simp only [splitOnHyphen]
    rw [if_neg hb, h2]

theorem splitOnHyphen_append (A B : List Char) (hA : '-' ∉ A) :
    splitOnHyphen (A ++ '-' :: B) = A :: splitOnHyphen B := by
  induction A with
  | nil =>
    simp [splitOnHyphen]
  | cons a A ih =>
    have ha : a ≠ '-' := fun h => hA (by simp [h])
    have h2 := ih (fun h => hA (by simp [h]))
    simp only [List.cons_append, splitOnHyphen, List.append_eq]
    rw [if_neg ha, h2]

theorem sqlBetween_decString (y a b : Int) :
    sqlBetween y (decString a) (decString b) = (decide (a ≤ y) && decide (y ≤ b)) := by
  unfold sqlBetween
  rw [parseSQLInt_decString, parseSQLInt_decString]

/-- Claim C6: a range token `"a-b"` (single-hyphen with nonnegative start, or
the multi-hyphen forms with negative bounds) resolves to the inclusive bounds
`(a, b)`, and the by-year predicate holds exactly for the years between
them. -/
theorem C6_range_token_bounds (a b y : Int) (t : String) (_hab : a ≤ b)
    (ht : t.toList = decString a ++ '-' :: decString b) :
    yearPred t y = true ↔ (a ≤ y ∧ y ≤ b) := by
  have hca := count_hyphen_decString a
  have hcb := count_hyphen_decString b
  have hcount : t.toList.count '-' = (decString a).count '-' + ((decString b).count '-' + 1) := by
    rw [ht, List.count_append, List.count_cons]
    simp
  by_cases ha : 0 ≤ a
  · have hca0 : (decString a).count '-' = 0 := by rw [hca, if_neg (by omega)]
    by_cases hb : 0 ≤ b
    · -- single-hyphen branch
      have hcb0 : (decString b).count '-' = 0 := by rw [hcb, if_neg (by omega)]
      have hcount1 : t.toList.count '-' = 1 := by omega
      have hhead : t.toList.head? ≠ some '-' := by
        rw [ht, List.head?_append_of_ne_nil _ (decString_ne_nil a)]
        exact head?_decString_nonneg a ha
      unfold yearPred
      rw [if_pos ⟨hcount1, hhead⟩, ht,
        splitOnHyphen_append _ _ (by
          rw [decString_nonneg a ha]; exact natDigits_not_mem_hyphen _),
        splitOnHyphen_no_hyphen _ (by
          rw [decString_nonneg b hb]; exact natDigits_not_mem_hyphen _)]
      show sqlBetween y (decString a) (decString b) = true ↔ a ≤ y ∧ y ≤ b
      rw [sqlBetween_decString]
      simp
    · -- a ≥ 0, b < 0: two hyphens, extractRange branch
      have hcb1 : (decString b).count '-' = 1 := by rw [hcb, if_pos (by omega)]
      unfold yearPred
      rw [if_neg (by rintro ⟨h, _⟩; omega), if_pos (by omega)]
      have halt1 : extractAlt1 t.toList = some (decString a, decString b) := by
        rw [ht]
        conv in decString a ++ _ => rw [decString_nonneg a ha]
        rw [extractAlt1_digits_start _ _ (isDigits_natDigits _) (signedDigits_decString b),
          decString_nonneg a ha]
      unfold extractRange
      rw [halt1, sqlBetween_decString]
      simp
  · -- a < 0: leading minus, extractRange branch
    have ha2 : a < 0 := by omega
    have hca1 : (decString a).count '-' = 1 := by rw [hca, if_pos ha2]
    unfold yearPred
    rw [if_neg (by rintro ⟨h, _⟩; omega), if_pos (by omega)]
    have hda : decString a = '-' :: natDigits (-a).toNat := decString_neg a ha2
    have halt1 : extractAlt1 t.toList = some (decString a, decString b) := by
      rw [ht, hda, List.cons_append,
        extractAlt1_neg_start _ _ (isDigits_natDigits _) (signedDigits_decString b)]
    unfold extractRange
    rw [halt1, sqlBetween_decString]
    simp

theorem C6_witness :
    (yearPred "1509-1547" (1510 : Int) = true) ∧ (yearPred "-100--50" ((-50 : Int)) = true) :=
  ⟨(C6_range_token_bounds 1509 1547 1510 "1509-1547" (by decide) (by decide)).mpr
      (by constructor <;> decide),
   (C6_range_token_bounds (-100) (-50) (-50) "-100--50" (by decide) (by decide)).mpr
      (by constructor <;> decide)⟩

/-! ## Malformed multi-hyphen tokens -/

theorem isDigits_eq_false_of_mem_hyphen {l : List Char} (h : '-' ∈ l) :
    isDigits l = false := by
  cases hd : isDigits l with
  | false => rfl
  | true =>
    exfalso
    rw [isDigits, Bool.and_eq_true, List.all_eq_true] at hd
    have h2 := hd.2 '-' h
    simp [hyphen_not_digit] at h2

/-- A token with more than one hyphen can never match the bare-year
alternative `^-?(\d+)$`. -/
theorem extractAlt2_none_of_multi_hyphen (l : List Char) (h : 1 < l.count '-') :
    extractAlt2 l = none := by
  unfold extractAlt2
  by_cases hh : l.head? = some '-'
  · rw [if_pos hh]
    cases l with
    | nil => simp at hh
    | cons a rest =>
      have ha : a = '-' := by simpa using hh
      subst ha
      rw [List.tail_cons]
      have hr : 0 < rest.count '-' := by
        rw [List.count_cons, beq_self_eq_true, if_pos rfl] at h
        omega
      have hmem : '-' ∈ rest := by
        by_contra hnm
        rw [List.count_eq_zero.mpr hnm] at hr
        omega
      rw [isDigits_eq_false_of_mem_hyphen hmem]
      rfl
  · rw [if_neg hh]
    have hmem : '-' ∈ l := by
      by_contra hnm
      rw [List.count_eq_zero.mpr hnm] at h
      omega
    rw [isDigits_eq_false_of_mem_hyphen hmem]
    rfl

/-- Claim C8 (amended): for a year-anchor token with more than one hyphen
whose content fails the two-group grammar, `extractRange` yields two empty
bounds and the resulting `BETWEEN '' AND ''` predicate selects no year at
all — the token is not treated as a single exact year. -/
theorem C8_multi_hyphen_no_match (t : String) (y : Int)
    (hcount : 1 < t.toList.count '-')
    (halt : extractAlt1 t.toList = none) :
    yearPred t y = false := by
  unfold yearPred
  rw [if_neg (by rintro ⟨h1, _⟩; omega), if_pos hcount]
  unfold extractRange
  rw [halt, extractAlt2_none_of_multi_hyphen _ hcount]
  rfl

/-- Claim C8 is false as stated: the year-like token `"--5"` has two hyphens
and fails the two-group grammar, and the retrieval then matches no year —
in particular neither -5 nor 5, the candidate readings of "a single exact
year" — because the fallback bounds are two empty strings. -/
theorem C8_counterexample :
    isNumberLike "--5" = true
      ∧ "--5".toList.count '-' = 2
      ∧ extractRange "--5".toList = ([], [])
      ∧ yearPred "--5" (-5) = false
      ∧ yearPred "--5" (5 : Int) = false :=
  ⟨by decide, by decide, by decide, by decide, by decide⟩

theorem C8_witness : yearPred "--5" (0 : Int) = false :=
  C8_multi_hyphen_no_match "--5" 0 (by decide) (by decide)

/-! ## Token classification -/

/-- Claim C7 (amended): the year anchor is the first year-like token, and the
residual filter keeps exactly the tokens that differ from the anchor as
strings — so a token equal to the anchor is dropped from the residual even
if it occurs at another position. -/
theorem C7_residual_terms (terms : List String) (m : String) (res : List String)
    (h : classifyTerms terms = (some m, res)) :
    isNumberLike m = true
      ∧ res = terms.filter (fun t => t != m)
      ∧ ∃ l1 l2, terms = l1 ++ m :: l2 ∧ l1.all (fun t => !isNumberLike t) = true := by
  unfold classifyTerms at h
  cases hf : terms.filter (fun t => isNumberLike t) with
  | nil =>
    rw [hf] at h
    exact absurd (congrArg Prod.fst h) (by simp)
  | cons c rest =>
    rw [hf] at h
    injection h with h1 h2
    injection h1 with h1
    subst h1
    obtain ⟨l1, l2, heq, hl1, hc, -⟩ := List.filter_eq_cons_iff.mp hf
    refine ⟨hc, h2.symm, l1, l2, heq, ?_⟩
    rw [List.all_eq_true]
    intro x hx
    simp [hl1 x hx]

/-- Claim C7 is false as stated: in the query tokens
`["1789", "france", "1789"]` the anchor is the first `"1789"`, but the
residual filter is `["france"]`, not all the other tokens
`["france", "1789"]` — the second occurrence of the anchor token is dropped
too. -/
theorem C7_counterexample :
    classifyTerms ["1789", "france", "1789"] = (some "1789", ["france"])
      ∧ (["france"] : List String) ≠ ["france", "1789"] :=
  ⟨by decide, by decide⟩

theorem C7_witness :
    isNumberLike "1789" = true
      ∧ ["france"] = ["1789", "france"].filter (fun t => t != "1789")
      ∧ ∃ l1 l2, ["1789", "france"] = l1 ++ "1789" :: l2
          ∧ l1.all (fun t => !isNumberLike t) = true :=
  C7_residual_terms ["1789", "france"] "1789" ["france"] (by decide)

/-- Claim C10: `formatYear` renders a negative year as the decimal string of
its magnitude followed by `" BC"` and a nonnegative year as its plain decimal
string with no era suffix; in particular year 0 renders as `"0"`. -/
theorem C10_formatYear_rendering :
    (∀ n : Nat, formatYear (-((n : Int) + 1)) = String.mk (natDigits (n + 1)) ++ " BC")
    ∧ (∀ n : Nat, formatYear ((n : Int)) = String.mk (natDigits n))
    ∧ formatYear 0 = "0" := by
  refine ⟨?_, ?_, rfl⟩
  · intro n
    unfold formatYear
    rw [if_pos (by omega : (-((n : Int) + 1)) < 0)]
    have h2 : (-(-((n : Int) + 1))).toNat = n + 1 := by omega
    rw [h2]
  · intro n
    unfold formatYear
    rw [if_neg (by omega : ¬((n : Int) < 0))]
    have h2 : ((n : Int)).toNat = n := by omega
    rw [h2]

/-- Claim C4: the spec's rank table assigns "Holy Roman Emperor" rank 3, but
`getTitleRank` checks the "roman emperor" substring first, which already
matches, so the title gets rank 1 and the rank-3 branch is unreachable; the
neighbouring table entries evaluate as the table says. -/
theorem C4_holy_roman_emperor_rank :
    getTitleRank "Holy Roman Emperor" = 1
      ∧ getTitleRank "Roman Emperor" = 1
      ∧ getTitleRank "Byzantine Emperor" = 2
      ∧ getTitleRank "King" = 10
      ∧ getTitleRank "Pope" = 55 := by decide

/-! ## Lineage windowing -/

theorem drop_range' (k s n : Nat) : (List.range' s n).drop k = List.range' (s + k) (n - k) := by
  induction k generalizing s n with
  | zero => simp
  | succ k ih =>
    cases n with
    | zero => simp
    | succ n =>
      rw [List.range'_succ, List.drop_succ_cons, ih]
      congr 1 <;> omega

/-- Claim C2: for a holder sequence whose position indices are the dense
range 1..N, the lineage window is exactly the contiguous block of positions
from `max 1 (p - 3)` through `N`, where `p` is the 1-indexed focal position;
and when no row matches the (ruler id, position) pair the focal index falls
back to the first entry. -/
theorem C2_lineage_window (rows : List LineageRow) (rid : Int) (prog : Nat)
    (hdense : rows.map (fun r => r.progrTitle) = List.range' 1 rows.length) :
    ((lineageWindow rows rid prog).map (fun r => r.progrTitle)
        = List.range' (max 1 (focalIdx rows rid prog + 1 - 3))
            (rows.length + 1 - max 1 (focalIdx rows rid prog + 1 - 3)))
      ∧ (rows.findIdx? (fun r => r.rulerID == rid && r.progrTitle == prog) = none →
          focalIdx rows rid prog = 0) := by
  constructor
  · unfold lineageWindow
    rw [List.map_drop, hdense, drop_range']
    congr 1 <;> omega
  · intro h
    unfold focalIdx
    rw [h]

theorem C2_witness :
    ((lineageWindow ([⟨10, 1⟩, ⟨20, 2⟩] : List LineageRow) 20 2).map (fun r => r.progrTitle)
        = List.range' (max 1 (focalIdx ([⟨10, 1⟩, ⟨20, 2⟩] : List LineageRow) 20 2 + 1 - 3))
            (([⟨10, 1⟩, ⟨20, 2⟩] : List LineageRow).length + 1
              - max 1 (focalIdx ([⟨10, 1⟩, ⟨20, 2⟩] : List LineageRow) 20 2 + 1 - 3)))
      ∧ (([⟨10, 1⟩, ⟨20, 2⟩] : List LineageRow).findIdx?
            (fun r => r.rulerID == 20 && r.progrTitle == 2) = none →
          focalIdx ([⟨10, 1⟩, ⟨20, 2⟩] : List LineageRow) 20 2 = 0) :=
  C2_lineage_window ([⟨10, 1⟩, ⟨20, 2⟩] : List LineageRow) 20 2 (by decide)

/-! ## No-results placeholder -/

/-- Claim C9: when a classified (year) term was present and the batch is
empty, the finalization step emits exactly one placeholder item with the
fixed headline and subtitle, an invalid primary action, and a single
secondary action that returns to the original query and clears the lineage
state variables; the event-enabled name search emits the same item for an
empty merged batch. -/
theorem C9_no_results_placeholder (yearTerm q : String) (h : yearTerm ≠ "") :
    finalizeByYear yearTerm q [] = [noResultsItem q]
      ∧ finalizeNameSearch q [] = [noResultsItem q]
      ∧ (noResultsItem q).valid = false
      ∧ (noResultsItem q).title = "No results here 🫤"
      ∧ (noResultsItem q).subtitle = "Try a different query"
      ∧ (noResultsItem q).arg = ""
      ∧ (noResultsItem q).mods.map Prod.fst = ["cmd+alt"]
      ∧ ∀ p ∈ (noResultsItem q).mods,
          p.2.valid = true ∧ p.2.arg = q
            ∧ p.2.vars = [("mySource", ""), ("myRulerID", ""), ("mytitleProg", ""),
                ("myTitle", ""), ("restoredQuery", q)] := by
  refine ⟨?_, ?_, rfl, rfl, rfl, rfl, rfl, ?_⟩
  · unfold finalizeByYear
    rw [if_pos ⟨h, rfl⟩]
  · unfold finalizeNameSearch
    rw [if_pos rfl]
  · intro p hp
    have hp2 : p = ("cmd+alt",
        { valid := true
          arg := q
          subtitle := "Go back to main search"
          vars := [("mySource", ""), ("myRulerID", ""), ("mytitleProg", ""),
            ("myTitle", ""), ("restoredQuery", q)] }) := by
      simpa [noResultsItem] using hp
    subst hp2
    exact ⟨rfl, rfl, rfl⟩

theorem C9_witness :
    finalizeByYear "1789" "1789 france" [] = [noResultsItem "1789 france"] :=
  (C9_no_results_placeholder "1789" "1789 france" (by decide)).1

/-! ## Merged counters -/

theorem addCounters_getElem? (items : List AlfredItem) (i : Nat) :
    (addCounters items)[i]? = items[i]?.map
      (fun x => { x with subtitle := withCounter (i + 1) items.length x.subtitle }) := by
  unfold addCounters
  rw [List.getElem?_map, List.getElem?_enum]
  cases items[i]? <;> rfl

/-- Claim C3 (amended): an event-enabled merged batch is the ruler items
followed by the event items, and the `i`-th item (1-indexed) gets the
counter `formatNumber i ++ "/" ++ formatNumber M` — `i` and `M` rendered
with thousand separators, so equal to the plain `"i/M"` only while both stay
below 1000 — prefixed to its subtitle, with `M` the combined length. -/
theorem C3_merge_counters (r e : List AlfredItem) (i : Nat) (x : AlfredItem)
    (h : (r ++ e)[i]? = some x) :
    (mergeResults r e)[i]? = some
      { x with subtitle := withCounter (i + 1) (r.length + e.length) x.subtitle } := by
  unfold mergeResults
  rw [addCounters_getElem?, h]
  simp [List.length_append]

theorem C3_witness :
    (mergeResults [plainItem] [plainItem])[1]? = some
      { plainItem with subtitle := withCounter 2 2 plainItem.subtitle } :=
  C3_merge_counters [plainItem] [plainItem] 1 plainItem (by decide)

set_option maxRecDepth 10000 in
/-- Claim C3 is false as stated: in a merged batch of 1000 items the first
item's subtitle starts with `"1/1,000"` — `formatNumber` inserts thousand
separators — and not with the claimed plain counter `"1/1000"`. -/
theorem C3_counterexample :
    ((mergeResults (List.replicate 1000 plainItem) []).head?.map
        (fun x => x.subtitle)) = some "1/1,000 s"
      ∧ ("1/1,000 s" : String) ≠ "1/1000 s" :=
  ⟨by decide, by decide⟩

/-! ## Title-group ordering -/

theorem innerLoop_len (l : List TitleGroup) (x : TitleGroup) :
    (innerLoop x l).2.length = l.length := by
  induction l generalizing x with
  | nil => rfl
  | cons y ys ih =>
    simp only [innerLoop]
    by_cases h : y.rank < x.rank
    · rw [if_pos h]
      simp [ih y]
    · rw [if_neg h]
      simp [ih x]

theorem innerLoop_spec (l : List TitleGroup) (x : TitleGroup) :
    (innerLoop x l).1.rank ≤ x.rank
      ∧ (∀ z ∈ l, (innerLoop x l).1.rank ≤ z.rank)
      ∧ (∀ z ∈ (innerLoop x l).2, z = x ∨ z ∈ l)
      ∧ ((innerLoop x l).1 = x ∨ (innerLoop x l).1 ∈ l) := by
  induction l generalizing x with
  | nil =>
    refine ⟨le_refl _, ?_, ?_, Or.inl rfl⟩
    · intro z hz; cases hz
    · intro z hz; cases hz
  | cons y ys ih =>
    by_cases h : y.rank < x.rank
    · have hr : innerLoop x (y :: ys) = ((innerLoop y ys).1, x :: (innerLoop y ys).2) := by
        simp only [innerLoop]
        rw [if_pos h]
      rw [hr]
      obtain ⟨ih1, ih2, ih3, ih4⟩ := ih y
      refine ⟨le_trans ih1 (le_of_lt h), ?_, ?_, ?_⟩
      · intro z hz
        rcases List.mem_cons.mp hz with rfl | hz2
        · exact ih1
        · exact ih2 z hz2
      · intro z hz
        rcases List.mem_cons.mp hz with rfl | hz2
        · exact Or.inl rfl
        · rcases ih3 z hz2 with rfl | hmem
          · exact Or.inr (List.mem_cons_self _ _)
          · exact Or.inr (List.mem_cons_of_mem _ hmem)
      · rcases ih4 with heq | hmem
        · exact Or.inr (by rw [heq]; exact List.mem_cons_self _ _)
        · exact Or.inr (List.mem_cons_of_mem _ hmem)
    · have hr : innerLoop x (y :: ys) = ((innerLoop x ys).1, y :: (innerLoop x ys).2) := by
        simp only [innerLoop]
        rw [if_neg h]
      rw [hr]
      obtain ⟨ih1, ih2, ih3, ih4⟩ := ih x
      refine ⟨ih1, ?_, ?_, ?_⟩
      · intro z hz
        rcases List.mem_cons.mp hz with rfl | hz2
        · exact le_trans ih1 (by omega)
        · exact ih2 z hz2
      · intro z hz
        rcases List.mem_cons.mp hz with rfl | hz2
        · exact Or.inr (List.mem_cons_self _ _)
        · rcases ih3 z hz2 with rfl | hmem
          · exact Or.inl rfl
          · exact Or.inr (List.mem_cons_of_mem _ hmem)
      · rcases ih4 with heq | hmem
        · exact Or.inl heq
        · exact Or.inr (List.mem_cons_of_mem _ hmem)

theorem selectionSortAux_mem (fuel : Nat) (l : List TitleGroup) (z : TitleGroup)
    (h : z ∈ selectionSortAux fuel l) : z ∈ l := by
  induction fuel generalizing l with
  | zero => exact h
  | succ f ih =>
    cases l with
    | nil => cases h
    | cons x xs =>
      have hr : selectionSortAux (f + 1) (x :: xs)
          = (innerLoop x xs).1 :: selectionSortAux f (innerLoop x xs).2 := rfl
      rw [hr] at h
      obtain ⟨-, -, h3, h4⟩ := innerLoop_spec xs x
      rcases List.mem_cons.mp h with rfl | h2
      · rcases h4 with heq | hmem
        · rw [heq]
          exact List.mem_cons_self _ _
        · exact List.mem_cons_of_mem _ hmem
      · rcases h3 z (ih _ h2) with rfl | hmem
        · exact List.mem_cons_self _ _
        · exact List.mem_cons_of_mem _ hmem

theorem selectionSortAux_sorted (fuel : Nat) (l : List TitleGroup) (hf : l.length ≤ fuel) :
    (selectionSortAux fuel l).Pairwise (fun g1 g2 => g1.rank ≤ g2.rank) := by
  induction fuel generalizing l with
  | zero =>
    have h0 : l = [] := List.eq_nil_of_length_eq_zero (by omega)
    subst h0
    exact List.Pairwise.nil
  | succ f ih =>
    cases l with
    | nil => exact List.Pairwise.nil
    | cons x xs =>
      have hr : selectionSortAux (f + 1) (x :: xs)
          = (innerLoop x xs).1 :: selectionSortAux f (innerLoop x xs).2 := rfl
      rw [hr]
      obtain ⟨h1, h2, h3, -⟩ := innerLoop_spec xs x
      refine List.Pairwise.cons ?_ (ih _ (by rw [innerLoop_len]; simpa using hf))
      intro z hz
      rcases h3 z (selectionSortAux_mem f _ z hz) with rfl | hmem
      · exact h1
      · exact h2 z hmem

/-- Claim C5 (amended): the title groups of a ruler's subtitle are listed in
ascending rank order, but the order among equal ranks is not stable (the
grouping order comes from a randomized Go map iteration and the exchange
sort reorders ties); a King group (rank 10) still always precedes a Pope
group (rank 55). -/
theorem C5_title_group_order :
    (∀ ps : List PeriodInfo,
        (selectionSort (buildGroups ps)).Pairwise (fun g1 g2 => g1.rank ≤ g2.rank))
      ∧ formatSubtitle [popePeriod, kingPeriod] none
          = "King (960-970); Pope (950-955)" := by
  constructor
  · intro ps
    exact selectionSortAux_sorted _ _ (le_refl _)
  · decide

/-- Claim C5 is false as stated: with two distinct rank-1000 titles grouped
in the order Archon, Vizier (and a King group to trigger a swap), the
exchange sort emits Vizier before Archon, so equal-rank groups are not kept
in their original order. -/
theorem C5_counterexample :
    formatSubtitle [archonPeriod, vizierPeriod, kingPeriod] none
        = "King (960-970); Vizier (120-130); Archon (100-110)"
      ∧ formatSubtitle [archonPeriod, vizierPeriod, kingPeriod] none
        ≠ "King (960-970); Archon (100-110); Vizier (120-130)"
      ∧ getTitleRank "Archon" = getTitleRank "Vizier" :=
  ⟨by decide, by decide, by decide⟩

end WhoWasWhen
